import Mathlib

/-!
Verification of the multipart / resumable upload engine of the `@dreamer/upload`
library (`src/multipart.ts`, `src/resumable.ts`, `src/adapters/s3.ts`, COS adapter).

Shallow embedding conventions:
  * Pure TypeScript functions become Lean functions on `Nat` / `String` / `List`.
  * The `while` loop of `calculateParts` is embedded with an explicit fuel
    argument (`fuel := fileSize`); a fuel of `fileSize` is sufficient whenever
    `0 < partSize`, which the uploader's configuration guarantees (the source
    would loop forever on `partSize = 0`).
  * `throw` / `Promise` rejection becomes `Except String`.
  * The storage adapter is an abstract, deterministic oracle (`StorageOracle`);
    every call the engine issues is recorded in a trace of `AdapterEvent`s.
  * The bounded-concurrency dispatch loop of `MultipartUploader.upload` is
    modelled at its sequential schedule (the semantics at `concurrency = 1`):
    parts are processed in dispatch order and the first rejected part promise
    propagates, exactly as `Promise.race`/`Promise.all` surface the first
    rejection in the source.  Wall-clock times (`Date.now()`) are threaded as
    explicit `now` parameters; durations are not modelled (set to 0).
  * Web-platform primitives (SHA-256/SHA-1/HMAC digests, `decodeURIComponent`)
    are abstract function parameters; the string assembly around them is
    embedded concretely.
-/

/-! ## Constants (src/multipart.ts, lines 154-173) -/

/-- Minimum part size, 5 MiB. -/
def MIN_PART_SIZE : Nat := 5 * 1024 * 1024

/-- Maximum part size, 5 GiB. -/
def MAX_PART_SIZE : Nat := 5 * 1024 * 1024 * 1024

/-- Maximum number of parts per upload. -/
def MAX_PARTS : Nat := 10000

/-- Default part size, 5 MiB. -/
def DEFAULT_PART_SIZE : Nat := 5 * 1024 * 1024

/-- Default concurrency. -/
def DEFAULT_CONCURRENCY : Nat := 3

/-- Default retry count. -/
def DEFAULT_RETRIES : Nat := 3

/-- Default retry delay in milliseconds. -/
def DEFAULT_RETRY_DELAY : Nat := 1000

/-! ## Data model (src/multipart.ts) -/

/-- Upload status of one part (`UploadPart.status`). -/
inductive PartStatus where
  | pending
  | uploading
  | completed
  | failed
deriving DecidableEq, Repr

/-- One part of the plan (`UploadPart` in multipart.ts).  The source field
`end` is a Lean keyword and is embedded as `end_`. -/
structure UploadPart where
  partNumber : Nat
  start : Nat
  end_ : Nat
  size : Nat
  etag : Option String := none
  status : PartStatus := .pending
  error : Option String := none
deriving DecidableEq, Repr

/-- `MultipartUploadState` of multipart.ts (the `options` field carries no
engine-relevant data and is omitted). -/
structure MultipartUploadState where
  uploadId : String
  key : String
  fileSize : Nat
  partSize : Nat
  parts : List UploadPart
  startTime : Nat := 0
deriving DecidableEq, Repr

/-- `MultipartUploadResult` of multipart.ts. -/
structure MultipartUploadResult where
  success : Bool
  key : String
  size : Nat
  etag : Option String := none
  partCount : Nat
  duration : Nat := 0
  error : Option String := none
deriving DecidableEq, Repr

/-- `MultipartUploadConfig` (all fields optional in the source). -/
structure MultipartUploadConfig where
  partSize : Option Nat := none
  concurrency : Option Nat := none
  retries : Option Nat := none
  retryDelay : Option Nat := none
deriving DecidableEq, Repr

/-- The `Required<MultipartUploadConfig>` stored on the uploader instance. -/
structure RequiredMultipartConfig where
  partSize : Nat
  concurrency : Nat
  retries : Nat
  retryDelay : Nat
deriving DecidableEq, Repr

/-- JavaScript `a || d` on an optional number: `0` is falsy, so both `undefined`
and `0` fall back to the default. -/
def jsOrDefault (v : Option Nat) (d : Nat) : Nat :=
  match v with
  | some n => if n = 0 then d else n
  | none => d

/-- The `MultipartUploader` constructor (multipart.ts lines 207-224): validates
the part size against the provider bounds and fills in defaults.  A `throw`
becomes `Except.error`.  The error strings inline `formatFileSize`'s output
for the two constants ("5 MB" / "5 GB"). -/
def mkMultipartUploader (config : MultipartUploadConfig) :
    Except String RequiredMultipartConfig :=
  let partSize := jsOrDefault config.partSize DEFAULT_PART_SIZE
  if partSize < MIN_PART_SIZE then
    Except.error "分片大小不能小于 5 MB"
  else if partSize > MAX_PART_SIZE then
    Except.error "分片大小不能大于 5 GB"
  else
    Except.ok
      { partSize := partSize
        concurrency := jsOrDefault config.concurrency DEFAULT_CONCURRENCY
        retries := jsOrDefault config.retries DEFAULT_RETRIES
        retryDelay := jsOrDefault config.retryDelay DEFAULT_RETRY_DELAY }

/-! ## Part-plan computation (multipart.ts lines 233-263) -/

/-- The `while (offset < fileSize)` loop of `calculateParts`, with explicit
fuel.  Each iteration pushes a part covering `[offset, min (offset+partSize)
fileSize)` and advances `offset` to that part's `end`.  `fuel := fileSize`
suffices whenever `0 < partSize`. -/
def calcPartsLoop (fileSize partSize : Nat) : Nat → Nat → Nat → List UploadPart
  | 0, _, _ => []
  | fuel + 1, offset, partNumber =>
    if offset < fileSize then
      { partNumber := partNumber
        start := offset
        end_ := min (offset + partSize) fileSize
        size := min (offset + partSize) fileSize - offset
        etag := none
        status := .pending
        error := none } ::
        calcPartsLoop fileSize partSize fuel (min (offset + partSize) fileSize)
          (partNumber + 1)
    else []

/-- The list built by `calculateParts` before the part-count check. -/
def calculatePartsList (fileSize partSize : Nat) : List UploadPart :=
  calcPartsLoop fileSize partSize fileSize 0 1

/-- `calculateParts` (multipart.ts lines 233-263): builds the plan, then throws
when the part count exceeds `MAX_PARTS`. -/
def calculateParts (fileSize partSize : Nat) : Except String (List UploadPart) :=
  let parts := calculatePartsList fileSize partSize
  if parts.length > MAX_PARTS then
    Except.error ("文件过大，分片数量 " ++ toString parts.length ++
      " 超过最大限制 " ++ toString MAX_PARTS)
  else Except.ok parts

/-- Contiguity predicate: the parts' `[start, end_)` ranges chain from `off`
with no gap and no overlap. -/
def chainedFrom : Nat → List UploadPart → Prop
  | _, [] => True
  | off, p :: rest => p.start = off ∧ chainedFrom p.end_ rest

def chainedFromDec : ∀ off l, Decidable (chainedFrom off l)
  | _, [] => .isTrue trivial
  | off, p :: rest =>
    have : Decidable (chainedFrom p.end_ rest) := chainedFromDec p.end_ rest
    have : Decidable (p.start = off ∧ chainedFrom p.end_ rest) := instDecidableAnd
    this

instance (off : Nat) (l : List UploadPart) : Decidable (chainedFrom off l) :=
  chainedFromDec off l

/-! ## Storage adapter oracle and call trace

The engine talks to a `CloudStorageAdapter` (initiate / uploadPart / complete /
abort).  Network behaviour is abstracted as a deterministic oracle; every call
the engine issues is recorded as an `AdapterEvent`. -/

/-- One storage-adapter call issued by the engine. -/
inductive AdapterEvent where
  /-- `initiateMultipartUpload(key)` -/
  | initiate (key : String)
  /-- `uploadPart(key, uploadId, partNumber, data)`, tagged with the retry
  attempt index that issued it. -/
  | uploadPart (key uploadId : String) (partNumber attempt : Nat)
  /-- `completeMultipartUpload(key, uploadId, parts)` with the part numbers
  in the order the engine sends them (the adapter sorts them internally,
  behind this oracle boundary). -/
  | complete (key uploadId : String) (partNumbers : List Nat)
  /-- `abortMultipartUpload(key, uploadId)` -/
  | abortUpload (key uploadId : String)
deriving DecidableEq, Repr

/-- Deterministic model of the storage adapter's responses.
`uploadPart partNumber attempt` is the outcome of the given retry attempt for
the given part: an ETag on success, an error message on rejection. -/
structure StorageOracle where
  initiate : Except String String
  uploadPart : Nat → Nat → Except String String
  complete : Except String Unit

/-- Bool form of `p.status === "pending" || p.status === "failed"`
(multipart.ts lines 381-383). -/
def isPendingOrFailed (p : UploadPart) : Bool :=
  match p.status with
  | .pending => true
  | .failed => true
  | _ => false

/-- Bool form of `p.status === "completed"`. -/
def isCompleted (p : UploadPart) : Bool :=
  match p.status with
  | .completed => true
  | _ => false

/-- `parts.filter(completed).reduce((sum, p) => sum + p.size, 0)`. -/
def sumSizes (l : List UploadPart) : Nat :=
  (l.map UploadPart.size).sum

/-- `Math.round((completedSize / file.length) * 100)` (multipart.ts line 403),
embedded as exact round-half-up rational rounding on naturals:
`(200·completed + total) / (2·total)`. -/
def jsRound100 (completed total : Nat) : Nat :=
  (200 * completed + total) / (2 * total)

/-! ## Per-part retry (multipart.ts lines 275-301) -/

/-- The retry loop of `uploadPartWithRetry`.  `attemptFn a` is the outcome of
attempt number `a`; `remaining` counts the attempts still allowed (the source
runs `attempt = 0 .. retries`).  Returns the final outcome (the last error when
all attempts fail — `throw lastError`), the number of attempts issued, and the
list of backoff sleeps `retryDelay * 2 ^ attempt` taken between consecutive
attempts.  The `remaining = 0` base case is unreachable from
`uploadPartWithRetry` (which starts at `retries + 1`) and mirrors the
`new Error("上传分片失败")` fallback for a null `lastError`. -/
def retryLoop (attemptFn : Nat → Except String String) (retryDelay : Nat) :
    Nat → Nat → Except String String × Nat × List Nat
  | _, 0 => (Except.error "上传分片失败", 0, [])
  | attempt, remaining + 1 =>
    match attemptFn attempt with
    | Except.ok etag => (Except.ok etag, 1, [])
    | Except.error e =>
      if remaining = 0 then (Except.error e, 1, [])
      else
        let r := retryLoop attemptFn retryDelay (attempt + 1) remaining
        (r.1, r.2.1 + 1, retryDelay * 2 ^ attempt :: r.2.2)

/-- `uploadPartWithRetry` (multipart.ts lines 275-301): up to `retries + 1`
attempts starting at attempt 0. -/
def uploadPartWithRetry (retries retryDelay : Nat)
    (attemptFn : Nat → Except String String) :
    Except String String × Nat × List Nat :=
  retryLoop attemptFn retryDelay 0 (retries + 1)

/-! ## Sequential upload loop (multipart.ts lines 411-460) -/

/-- Output of the part-dispatch loop. -/
structure RunOut where
  /-- The dispatched parts with their updated statuses (parts after the first
  failed one keep their previous status, as they are never dispatched). -/
  parts : List UploadPart
  /-- Final `completedSize`. -/
  completedSize : Nat
  /-- Adapter calls issued, in order. -/
  events : List AdapterEvent
  /-- The `percentage` values delivered to `onProgress`, in order. -/
  progress : List Nat
  /-- The error of the first rejected part promise, if any (it propagates to
  the engine's `catch` through `Promise.race`/`Promise.all`). -/
  firstError : Option String
deriving DecidableEq, Repr

/-- The dispatch loop over the pending parts, at the sequential schedule: each
part runs `uploadPartWithRetry`; on success the part is marked `completed`,
`completedSize` grows and a progress callback fires (multipart.ts lines
422-446); on final failure the part is marked `failed` and the rejection stops
dispatching (`Promise.race`/`Promise.all` rethrow it). -/
def runParts (cfg : RequiredMultipartConfig) (oracle : StorageOracle)
    (key uploadId : String) (fileSize : Nat) :
    List UploadPart → Nat → RunOut
  | [], cs => ⟨[], cs, [], [], none⟩
  | p :: rest, cs =>
    let r := uploadPartWithRetry cfg.retries cfg.retryDelay
      (oracle.uploadPart p.partNumber)
    let evs := (List.range r.2.1).map
      (fun a => AdapterEvent.uploadPart key uploadId p.partNumber a)
    match r.1 with
    | Except.ok etag =>
      let p' := { p with etag := some etag, status := .completed }
      let cs' := cs + p.size
      let out := runParts cfg oracle key uploadId fileSize rest cs'
      ⟨p' :: out.parts, out.completedSize, evs ++ out.events,
        jsRound100 cs' fileSize :: out.progress, out.firstError⟩
    | Except.error e =>
      let p' := { p with status := .failed, error := some e }
      ⟨p' :: rest, cs, evs, [], some e⟩

/-- Models the in-place mutation of the shared `state.parts` entries: each
original part is replaced by its updated version (matched by `partNumber`). -/
def mergeParts (orig updated : List UploadPart) : List UploadPart :=
  orig.map (fun p =>
    ((updated.find? (fun q => decide (q.partNumber = p.partNumber))).getD p))

/-- JS truthiness of `p.etag` (an empty-string ETag is falsy). -/
def etagTruthy (p : UploadPart) : Bool :=
  match p.etag with
  | some s => decide (s ≠ "")
  | none => false

/-- The body of `upload` from the state onward (multipart.ts lines 377-491):
filter pending parts, run the dispatch loop, check for non-completed parts,
and complete the multipart upload.  `ev0` carries the adapter events already
issued (the initiate call on a fresh start).  Returns the result, the final
engine state (as observed by the `onStateChange` callback), the adapter-call
trace, and the progress-percentage sequence. -/
def runFromState (cfg : RequiredMultipartConfig) (fileSize : Nat) (key : String)
    (oracle : StorageOracle) (st : MultipartUploadState)
    (ev0 : List AdapterEvent) :
    MultipartUploadResult × Option MultipartUploadState ×
      List AdapterEvent × List Nat :=
  let pending := st.parts.filter isPendingOrFailed
  let cs0 := sumSizes (st.parts.filter isCompleted)
  let out := runParts cfg oracle key st.uploadId fileSize pending cs0
  let finalParts := mergeParts st.parts out.parts
  let st' := { st with parts := finalParts }
  match out.firstError with
  | some e =>
    (⟨false, key, fileSize, none, 0, 0, some e⟩, some st',
      ev0 ++ out.events, out.progress)
  | none =>
    let failed := finalParts.filter (fun p => ! isCompleted p)
    if failed.length > 0 then
      (⟨false, key, fileSize, none, 0, 0,
          some (toString failed.length ++ " 个分片上传失败")⟩,
        some st', ev0 ++ out.events, out.progress)
    else
      let completedParts := finalParts.filter
        (fun p => isCompleted p && etagTruthy p)
      let ev := AdapterEvent.complete key st.uploadId
        (completedParts.map UploadPart.partNumber)
      match oracle.complete with
      | Except.error e =>
        (⟨false, key, fileSize, none, 0, 0, some e⟩, some st',
          ev0 ++ out.events ++ [ev], out.progress)
      | Except.ok _ =>
        (⟨true, key, fileSize, none, finalParts.length, 0, none⟩, some st',
          ev0 ++ out.events ++ [ev], out.progress)

/-- `MultipartUploader.upload` (multipart.ts lines 342-491) at the sequential
schedule.  On a fresh start (`resumeState = none`) it computes the part plan
and initiates the multipart upload before dispatching; every thrown error is
caught and returned as a `success = false` result (the function never
rejects).  The second component is the final engine state as seen by
`onStateChange` (`none` when the session was never created). -/
def multipartUpload (cfg : RequiredMultipartConfig) (fileSize : Nat)
    (key : String) (oracle : StorageOracle)
    (resumeState : Option MultipartUploadState) :
    MultipartUploadResult × Option MultipartUploadState ×
      List AdapterEvent × List Nat :=
  match resumeState with
  | some st => runFromState cfg fileSize key oracle st []
  | none =>
    match calculateParts fileSize cfg.partSize with
    | Except.error e => (⟨false, key, fileSize, none, 0, 0, some e⟩, none, [], [])
    | Except.ok parts =>
      match oracle.initiate with
      | Except.error e =>
        (⟨false, key, fileSize, none, 0, 0, some e⟩, none,
          [AdapterEvent.initiate key], [])
      | Except.ok uploadId =>
        runFromState cfg fileSize key oracle
          { uploadId := uploadId, key := key, fileSize := fileSize,
            partSize := cfg.partSize, parts := parts, startTime := 0 }
          [AdapterEvent.initiate key]

/-- Bool test for an `Except.error`. -/
def exceptIsError {α : Type} : Except String α → Bool
  | Except.error _ => true
  | Except.ok _ => false

/-- Running totals of a list: `runningTotals cs [s₁, s₂, …] =
[cs+s₁, cs+s₁+s₂, …]` (the successive values of `completedSize`). -/
def runningTotals (cs : Nat) : List Nat → List Nat
  | [] => []
  | s :: rest => (cs + s) :: runningTotals (cs + s) rest

/-! ## Resumable uploader (src/resumable.ts) -/

/-- `ResumableUploadState.status`. -/
inductive ResumableStatus where
  | pending
  | uploading
  | paused
  | completed
  | failed
  | cancelled
deriving DecidableEq, Repr

/-- `ResumableUploadState` (resumable.ts lines 91-116; the `options` and
`metadata` passthrough fields are omitted). -/
structure ResumableUploadState where
  id : String
  key : String
  filename : String
  fileSize : Nat
  fileHash : String
  status : ResumableStatus
  multipartState : Option MultipartUploadState := none
  createdAt : Nat := 0
  updatedAt : Nat := 0
  error : Option String := none
deriving DecidableEq, Repr

/-- `ResumableUploadResult` (resumable.ts lines 155-170). -/
structure ResumableUploadResult where
  success : Bool
  id : String
  key : String
  size : Nat
  partCount : Nat
  duration : Nat := 0
  error : Option String := none
deriving DecidableEq, Repr

/-- `MemoryStateStore` (resumable.ts lines 208-256): a `Map` from upload id to
record, embedded as an association list in insertion order. -/
abbrev StateStore : Type := List (String × ResumableUploadState)

/-- `Map.get` / `stateStore.get(id)`. -/
def storeGet : StateStore → String → Option ResumableUploadState
  | [], _ => none
  | (k, v) :: rest, id => if k = id then some v else storeGet rest id

/-- `stateStore.save(id, state)`: `Map.set` of `{...state, updatedAt: now}` —
replaces an existing entry in place, otherwise appends. -/
def storeSave : StateStore → String → ResumableUploadState → Nat → StateStore
  | [], id, s, now => [(id, { s with updatedAt := now })]
  | (k, v) :: rest, id, s, now =>
    if k = id then (id, { s with updatedAt := now }) :: rest
    else (k, v) :: storeSave rest id s now

/-- `stateStore.delete(id)`: `Map.delete`. -/
def storeDelete : StateStore → String → StateStore
  | [], _ => []
  | (k, v) :: rest, id => if k = id then rest else (k, v) :: storeDelete rest id

/-- Bool form of `status ∈ {pending, paused, uploading}` (the `listPending`
filter, resumable.ts lines 237-242). -/
def isNonTerminal (s : ResumableUploadState) : Bool :=
  match s.status with
  | .pending => true
  | .paused => true
  | .uploading => true
  | _ => false

/-- `stateStore.listPending()`. -/
def storeListPending (store : StateStore) : List ResumableUploadState :=
  (store.map Prod.snd).filter isNonTerminal

/-- The ids present in the store. -/
def storeIds (store : StateStore) : List String :=
  store.map Prod.fst

/-- Store well-formedness: each record's `id` field equals its map key, and
keys are distinct (both invariants are maintained by every save the
controller performs). -/
def StoreWF (store : StateStore) : Prop :=
  (∀ p ∈ store, (Prod.snd p).id = Prod.fst p) ∧ (storeIds store).Nodup

instance (store : StateStore) : Decidable (StoreWF store) :=
  inferInstanceAs (Decidable (_ ∧ _))

/-- Big-endian 64-bit encoding of `n` (`DataView.setBigUint64`, default
big-endian). -/
def be64 (n : Nat) : List Nat :=
  (List.range 8).map (fun i => n / 2 ^ (8 * (7 - i)) % 256)

/-- The sample hashed by `calculateFileHash` (resumable.ts lines 446-467):
the full content for inputs of at most 2 MiB, otherwise head 1 MiB ++ tail
1 MiB ++ the file length as 8 big-endian bytes. -/
def hashSample (data : List Nat) : List Nat :=
  let sampleSize := 1024 * 1024
  if data.length ≤ sampleSize * 2 then data
  else data.take sampleSize ++ data.drop (data.length - sampleSize) ++
    be64 data.length

/-- `calculateFileHash` with the SHA-256 digest-and-hex pipeline abstracted as
`sha` (a fixed function of the sampled bytes). -/
def calculateFileHash (sha : List Nat → String) (data : List Nat) : String :=
  sha (hashSample data)

/-- `findExistingUpload(key, fileHash, fileSize)` (resumable.ts lines
749-761): the first non-terminal record matching the content identity. -/
def findExistingUpload (store : StateStore) (key fileHash : String)
    (fileSize : Nat) : Option ResumableUploadState :=
  (storeListPending store).find? (fun s =>
    decide (s.key = key) && decide (s.fileHash = fileHash) &&
      decide (s.fileSize = fileSize))

/-- `executeUpload` (resumable.ts lines 562-654).  `aborted` is the value of
the cooperative abort flag observed by the `catch` handler (the flag is
flipped by a concurrent `cancel`/`pause`; it does NOT influence the engine
run itself, because the engine invokes the async `onStateChange` wrapper
without awaiting it, so the wrapper's rejection is never observed).  The
throttled intermediate auto-saves write the same record id and are overwritten
by the final save, so only the final save/delete is modelled.  The only
exception reaching the `catch` handler in this model is the
`createMultipartUploader` configuration error (the engine itself never
rejects). -/
def executeUpload (cfg : MultipartUploadConfig) (store : StateStore)
    (state : ResumableUploadState) (fileSize : Nat) (oracle : StorageOracle)
    (aborted : Bool) (now : Nat) :
    ResumableUploadResult × StateStore × List AdapterEvent :=
  match mkMultipartUploader cfg with
  | Except.error e =>
    let state' := { state with
      status := if aborted then ResumableStatus.cancelled else ResumableStatus.failed,
      error := some e, updatedAt := now }
    (⟨false, state.id, state.key, state.fileSize, 0, 0, some e⟩,
      storeSave store state.id state' now, [])
  | Except.ok ucfg =>
    let run := multipartUpload ucfg fileSize state.key oracle state.multipartState
    let finalMp := match run.2.1 with
      | some m => some m
      | none => state.multipartState
    let state' := { state with
      multipartState := finalMp,
      status := if run.1.success then ResumableStatus.completed else ResumableStatus.failed,
      error := run.1.error, updatedAt := now }
    let store1 := storeSave store state.id state' now
    let store2 := if run.1.success then storeDelete store1 state.id else store1
    (⟨run.1.success, state.id, state.key, state.fileSize, run.1.partCount,
        run.1.duration, run.1.error⟩,
      store2, run.2.2.1)

/-- `resume(id, file)` (resumable.ts lines 518-557): load the record, verify
the content hash and size, then mark it `uploading` and run the engine. -/
def resume (sha : List Nat → String) (cfg : MultipartUploadConfig)
    (oracle : StorageOracle) (store : StateStore) (id : String)
    (file : List Nat) (now : Nat) :
    ResumableUploadResult × StateStore × List AdapterEvent :=
  match storeGet store id with
  | none => (⟨false, id, "", 0, 0, 0, some "上传状态不存在"⟩, store, [])
  | some state =>
    if calculateFileHash sha file ≠ state.fileHash ∨
        file.length ≠ state.fileSize then
      (⟨false, id, state.key, file.length, 0, 0,
          some "文件不匹配，无法恢复上传"⟩, store, [])
    else
      let state1 := { state with
        status := ResumableStatus.uploading,
        updatedAt := now }
      let store1 := storeSave store id state1 now
      executeUpload cfg store1 state1 file.length oracle false now

/-- JS `a || d` on an optional string (the empty string is falsy). -/
def jsStrOr (v : Option String) (d : String) : String :=
  match v with
  | some s => if s = "" then d else s
  | none => d

/-- `filename || key.split("/").pop() || "file"` (resumable.ts line 493). -/
def defaultFilename (filename : Option String) (key : String) : String :=
  jsStrOr filename (jsStrOr ((key.splitOn "/").getLast?) "file")

/-- `ResumableUploader.upload` (resumable.ts lines 475-507): compute the
content hash, delegate to `resume` when a matching non-terminal record exists,
otherwise create a fresh record (id `freshId` = `crypto.randomUUID()`) and run
the engine. -/
def resumableUpload (sha : List Nat → String) (cfg : MultipartUploadConfig)
    (oracle : StorageOracle) (store : StateStore) (freshId : String)
    (file : List Nat) (key : String) (filename : Option String) (now : Nat) :
    ResumableUploadResult × StateStore × List AdapterEvent :=
  let fileHash := calculateFileHash sha file
  match findExistingUpload store key fileHash file.length with
  | some existing => resume sha cfg oracle store existing.id file now
  | none =>
    let state : ResumableUploadState :=
      { id := freshId, key := key, filename := defaultFilename filename key,
        fileSize := file.length, fileHash := fileHash,
        status := ResumableStatus.uploading, multipartState := none,
        createdAt := now, updatedAt := now, error := none }
    let store1 := storeSave store freshId state now
    executeUpload cfg store1 state file.length oracle false now

/-- `cancel(id)` (resumable.ts lines 680-698): flip the in-flight abort flag
(modelled by the caller), mark the stored record `cancelled`, and issue one
best-effort provider abort when the stored record has a multipart session.
Abort errors are swallowed by `MultipartUploader.abort`, so only the call
itself is traced. -/
def cancel (store : StateStore) (id : String) (now : Nat) :
    StateStore × List AdapterEvent :=
  match storeGet store id with
  | none => (store, [])
  | some state =>
    let state' := { state with
      status := ResumableStatus.cancelled,
      updatedAt := now }
    let store1 := storeSave store id state' now
    match state.multipartState with
    | some mp => (store1, [AdapterEvent.abortUpload mp.key mp.uploadId])
    | none => (store1, [])

/-! ## Request signing (src/adapters/s3.ts and the COS adapter)

The cryptographic digests (`crypto.subtle`) and `decodeURIComponent` are
abstract function parameters; all canonicalization and string assembly is
embedded concretely.  JS string sorting (`Array.prototype.sort`, also used
with `localeCompare` in the sources) is modelled by code-unit comparison. -/

/-- Lower-case hex digit for `b.toString(16)`. -/
def hexDigit (n : Nat) : Char :=
  if n < 10 then Char.ofNat (48 + n) else Char.ofNat (87 + n)

/-- `b.toString(16).padStart(2, "0")` for a byte. -/
def byteToHexStr (b : Nat) : String :=
  String.mk [hexDigit (b / 16 % 16), hexDigit (b % 16)]

/-- `bytesToHex` (s3.ts lines 36-40). -/
def bytesToHex (bs : List Nat) : String :=
  String.join (bs.map byteToHexStr)

/-- Upper-case hex digit (percent-encoding uses upper case). -/
def hexDigitUpper (n : Nat) : Char :=
  if n < 10 then Char.ofNat (48 + n) else Char.ofNat (55 + n)

/-- UTF-8 bytes of a string (`TextEncoder.encode`). -/
def strBytes (s : String) : List Nat :=
  s.toUTF8.toList.map UInt8.toNat

/-- Unreserved byte of `encodeURIComponent` after the additional `!'()*`
escaping of `awsUriEncode`: `A-Z a-z 0-9 - _ . ~`. -/
def isUnreservedByte (b : Nat) : Bool :=
  (65 ≤ b && b ≤ 90) || (97 ≤ b && b ≤ 122) || (48 ≤ b && b ≤ 57) ||
    b = 45 || b = 95 || b = 46 || b = 126

/-- `awsUriEncode` (s3.ts lines 107-114): RFC 3986 percent-encoding with
`!'()*` additionally escaped, i.e. every byte outside the unreserved set is
written `%XX` with upper-case hex. -/
def awsUriEncode (s : String) : String :=
  String.join ((strBytes s).map (fun b =>
    if isUnreservedByte b then String.mk [Char.ofNat b]
    else String.mk ['%', hexDigitUpper (b / 16 % 16), hexDigitUpper (b % 16)]))

/-- `cosEncode` of the COS adapter — textually identical to `awsUriEncode`. -/
def cosEncode (s : String) : String := awsUriEncode s

/-- Code-unit string comparison (models JS default sort order and, for the
ASCII strings occurring here, `localeCompare`). -/
def charsLe : List Char → List Char → Bool
  | [], _ => true
  | _ :: _, [] => false
  | a :: as, b :: bs =>
    if a.toNat < b.toNat then true
    else if b.toNat < a.toNat then false
    else charsLe as bs

/-- String comparison on code units. -/
def strLe (a b : String) : Bool := charsLe a.data b.data

/-- Insert into a sorted list of strings. -/
def insertStr (x : String) : List String → List String
  | [] => [x]
  | y :: ys => if strLe x y then x :: y :: ys else y :: insertStr x ys

/-- Sort a list of strings (models `Array.prototype.sort`). -/
def sortStrings : List String → List String
  | [] => []
  | x :: xs => insertStr x (sortStrings xs)

/-- Insert into a list of pairs sorted by first component. -/
def insertPair (x : String × String) :
    List (String × String) → List (String × String)
  | [] => [x]
  | y :: ys => if strLe x.1 y.1 then x :: y :: ys else y :: insertPair x ys

/-- Sort pairs by first component (models `.sort(([a],[b]) =>
a.localeCompare(b))`). -/
def sortPairs : List (String × String) → List (String × String)
  | [] => []
  | x :: xs => insertPair x (sortPairs xs)

/-- JS object property assignment `headers[k] = v` on a header map in
insertion order: replaces an existing key in place, otherwise appends. -/
def jsSet (hs : List (String × String)) (k v : String) :
    List (String × String) :=
  match hs with
  | [] => [(k, v)]
  | (k', v') :: rest =>
    if k' = k then (k, v) :: rest else (k', v') :: jsSet rest k v

/-- First value bound to `k`, with default. -/
def lookupD (hs : List (String × String)) (k d : String) : String :=
  match hs.find? (fun p => decide (p.1 = k)) with
  | some p => p.2
  | none => d

/-- Build the lower-cased header map (s3.ts lines 253-257): object-literal
fill in iteration order, later duplicates (after lower-casing) overwrite in
place. -/
def lowercaseAll (hs : List (String × String)) : List (String × String) :=
  hs.foldl (fun acc p => jsSet acc p.1.toLower p.2) []

/-- `S3Config` (credentials relevant to signing). -/
structure S3Config where
  bucket : String
  region : String
  accessKeyId : String
  secretAccessKey : String
  sessionToken : Option String := none
deriving DecidableEq, Repr

/-- A parsed URL (`new URL(url)`): host, pathname and decoded query pairs. -/
structure ParsedUrl where
  host : String
  pathname : String
  searchParams : List (String × String)
deriving DecidableEq, Repr

/-- `getSignatureKey` (s3.ts lines 84-99): the four-step HMAC-SHA256 chain.
`hmac key data` abstracts one HMAC-SHA256 computation on byte lists. -/
def getSignatureKey (hmac : List Nat → List Nat → List Nat)
    (secretKey dateStamp region service : String) : List Nat :=
  let kDate := hmac (strBytes ("AWS4" ++ secretKey)) (strBytes dateStamp)
  let kRegion := hmac kDate (strBytes region)
  let kService := hmac kRegion (strBytes service)
  hmac kService (strBytes "aws4_request")

/-- `signRequest` (s3.ts lines 228-312), the AWS Signature Version 4 signing
pipeline.  `sha256` and `hmac` abstract the digests, `dec` abstracts
`decodeURIComponent`; `amzDate`/`dateStamp` are the two renderings of the
single `new Date()` timestamp taken at the start of the call.  Returns the
signed header map, the hex signature, and the `Authorization` value. -/
def signRequest (sha256 : List Nat → List Nat)
    (hmac : List Nat → List Nat → List Nat) (dec : String → String)
    (config : S3Config) (method : String) (url : ParsedUrl)
    (headers : List (String × String)) (payload : List Nat)
    (amzDate dateStamp : String) :
    List (String × String) × String × String :=
  let headers1 := jsSet headers "x-amz-date" amzDate
  let headers2 := jsSet headers1 "host" url.host
  let payloadHash := bytesToHex (sha256 payload)
  let headers3 := jsSet headers2 "x-amz-content-sha256" payloadHash
  let headers4 := match config.sessionToken with
    | some t => jsSet headers3 "x-amz-security-token" t
    | none => headers3
  let lower := lowercaseAll headers4
  let sortedHeaderKeys := sortStrings (lower.map Prod.fst)
  let signedHeaders := String.intercalate ";" sortedHeaderKeys
  let canonicalHeaders := String.join (sortedHeaderKeys.map
    (fun k => k ++ ":" ++ lookupD lower k "" ++ "\n"))
  let canonicalUri := String.intercalate "/"
    ((url.pathname.splitOn "/").map (fun p => awsUriEncode (dec p)))
  let canonicalQueryString := String.intercalate "&"
    ((sortPairs url.searchParams).map
      (fun p => awsUriEncode p.1 ++ "=" ++ awsUriEncode p.2))
  let canonicalRequest := String.intercalate "\n"
    [method, canonicalUri, canonicalQueryString, canonicalHeaders,
      signedHeaders, payloadHash]
  let algorithm := "AWS4-HMAC-SHA256"
  let credentialScope := dateStamp ++ "/" ++ config.region ++ "/s3/aws4_request"
  let stringToSign := String.intercalate "\n"
    [algorithm, amzDate, credentialScope,
      bytesToHex (sha256 (strBytes canonicalRequest))]
  let signingKey := getSignatureKey hmac config.secretAccessKey dateStamp
    config.region "s3"
  let signature := bytesToHex (hmac signingKey (strBytes stringToSign))
  let authorization := algorithm ++ " Credential=" ++ config.accessKeyId ++
    "/" ++ credentialScope ++ ", SignedHeaders=" ++ signedHeaders ++
    ", Signature=" ++ signature
  (jsSet headers4 "Authorization" authorization, signature, authorization)

/-- `COSConfig` (credentials relevant to signing). -/
structure COSConfig where
  bucket : String
  region : String
  secretId : String
  secretKey : String
  sessionToken : Option String := none
deriving DecidableEq, Repr

/-- The COS header whitelist: `host`, `content-type`, `content-length` and
`x-cos-*` (compared on the lower-cased name). -/
def cosHeaderKept (k : String) : Bool :=
  let lk := k.toLower
  decide (lk = "host") || decide (lk = "content-type") ||
    decide (lk = "content-length") || lk.startsWith "x-cos-"

/-- `COSStorageAdapter.generateSignature` (COS adapter lines 188-256), the
native COS signing scheme.  `sha1hex` abstracts `sha1` (hex output), `hmac1`
abstracts `hmacSha1Hex`; `now` is `Math.floor(Date.now() / 1000)` at the
start of the call, `expireTime` the validity window in seconds.  Returns the
structured `q-sign-algorithm=…&…&q-signature=…` authorization string. -/
def generateSignature (sha1hex : List Nat → String)
    (hmac1 : String → String → String) (config : COSConfig)
    (method : String) (key : String) (headers : List (String × String))
    (queryParams : List (String × String)) (expireTime now : Nat) : String :=
  let keyTime := toString now ++ ";" ++ toString (now + expireTime)
  let signKey := hmac1 config.secretKey keyTime
  let headerList := sortPairs ((headers.filter (fun p => cosHeaderKept p.1)).map
    (fun p => (p.1.toLower, cosEncode p.2)))
  let headerListStr := String.intercalate ";" (headerList.map Prod.fst)
  let httpHeaders := String.intercalate "&"
    (headerList.map (fun p => p.1 ++ "=" ++ p.2))
  let paramList := sortPairs (queryParams.map
    (fun p => (p.1.toLower, cosEncode p.2)))
  let paramListStr := String.intercalate ";" (paramList.map Prod.fst)
  let httpParams := String.intercalate "&"
    (paramList.map (fun p => p.1 ++ "=" ++ p.2))
  let httpString := String.intercalate "\n"
    [method.toLower, "/" ++ key, httpParams, httpHeaders, ""]
  let stringToSign := String.intercalate "\n"
    ["sha1", keyTime, sha1hex (strBytes httpString), ""]
  let signature := hmac1 signKey stringToSign
  String.intercalate "&"
    ["q-sign-algorithm=sha1", "q-ak=" ++ config.secretId,
      "q-sign-time=" ++ keyTime, "q-key-time=" ++ keyTime,
      "q-header-list=" ++ headerListStr,
      "q-url-param-list=" ++ paramListStr,
      "q-signature=" ++ signature]

/-! ## Concrete fixtures used by witnesses and counterexamples -/

/-- An adapter whose calls all succeed. -/
def okOracle : StorageOracle :=
  ⟨Except.ok "uid-1", fun _ _ => Except.ok "etag-1", Except.ok ()⟩

/-- An adapter whose part uploads always fail with a fixed network error. -/
def failPartOracle : StorageOracle :=
  ⟨Except.ok "uid-1", fun _ _ => Except.error "network error", Except.ok ()⟩

/-- A valid resumable-uploader configuration (5 MiB parts). -/
def sampleCfg : MultipartUploadConfig :=
  { partSize := some 5242880, concurrency := some 1, retries := some 1,
    retryDelay := some 1 }

/-- A fixed content-hash function (the digest is abstract). -/
def sampleSha : List Nat → String := fun _ => "hash-1"

/-- A persisted engine state: 2 parts of 1 byte, part 1 already completed. -/
def sampleMp : MultipartUploadState :=
  { uploadId := "mp-1", key := "k", fileSize := 2, partSize := 1,
    parts := [
      { partNumber := 1, start := 0, end_ := 1, size := 1, etag := some "e1",
        status := .completed, error := none },
      { partNumber := 2, start := 1, end_ := 2, size := 1, etag := none,
        status := .pending, error := none }],
    startTime := 0 }

/-- A stored in-flight record for `sampleMp`. -/
def sampleRecord : ResumableUploadState :=
  { id := "u1", key := "k", filename := "f", fileSize := 2,
    fileHash := "hash-1", status := ResumableStatus.uploading,
    multipartState := some sampleMp, createdAt := 0, updatedAt := 0,
    error := none }

/-- A store holding just the in-flight record. -/
def sampleStore : StateStore := [("u1", sampleRecord)]

/-! # Theorems -/

/-! ## Part-plan lemmas (claim C1) -/

theorem calcPartsLoop_zero (fileSize partSize offset pn : Nat) :
    calcPartsLoop fileSize partSize 0 offset pn = [] := rfl

theorem calcPartsLoop_nil (fileSize partSize fuel offset pn : Nat)
    (h : fileSize ≤ offset) :
    calcPartsLoop fileSize partSize fuel offset pn = [] := by
  cases fuel with
  | zero => rfl
  | succ n => simp [calcPartsLoop, Nat.not_lt.mpr h]

theorem calcPartsLoop_cons (fileSize partSize fuel offset pn : Nat)
    (h : offset < fileSize) :
    calcPartsLoop fileSize partSize (fuel + 1) offset pn =
      { partNumber := pn, start := offset,
        end_ := min (offset + partSize) fileSize,
        size := min (offset + partSize) fileSize - offset, etag := none,
        status := .pending, error := none } ::
      calcPartsLoop fileSize partSize fuel (min (offset + partSize) fileSize)
        (pn + 1) := by
  simp [calcPartsLoop, h]

theorem calcPartsLoop_sum (fileSize partSize : Nat) (hp : 0 < partSize) :
    ∀ fuel offset pn, fileSize - offset ≤ fuel →
      sumSizes (calcPartsLoop fileSize partSize fuel offset pn)
        = fileSize - offset := by
  intro fuel
  induction fuel with
  | zero =>
    intro offset pn h
    rw [calcPartsLoop_zero]
    simp [sumSizes]
    omega
  | succ n ih =>
    intro offset pn h
    by_cases hlt : offset < fileSize
    · rw [calcPartsLoop_cons _ _ _ _ _ hlt]
      simp only [sumSizes, List.map_cons, List.sum_cons] at *
      rw [ih (min (offset + partSize) fileSize) (pn + 1) (by omega)]
      omega
    · rw [calcPartsLoop_nil _ _ _ _ _ (Nat.not_lt.mp hlt)]
      simp [sumSizes]
      omega

theorem calcPartsLoop_status (fileSize partSize : Nat) :
    ∀ fuel offset pn p, p ∈ calcPartsLoop fileSize partSize fuel offset pn →
      p.status = .pending := by
  intro fuel
  induction fuel with
  | zero => intro offset pn p hmem; rw [calcPartsLoop_zero] at hmem; cases hmem
  | succ n ih =>
    intro offset pn p hmem
    by_cases hlt : offset < fileSize
    · rw [calcPartsLoop_cons _ _ _ _ _ hlt] at hmem
      rcases List.mem_cons.mp hmem with h | h
      · rw [h]
      · exact ih _ _ _ h
    · rw [calcPartsLoop_nil _ _ _ _ _ (Nat.not_lt.mp hlt)] at hmem
      cases hmem

theorem calcPartsLoop_shape (fileSize partSize : Nat) (hp : 0 < partSize) :
    ∀ fuel offset pn p, p ∈ calcPartsLoop fileSize partSize fuel offset pn →
      p.size = p.end_ - p.start ∧ p.start < p.end_ ∧ p.end_ ≤ fileSize := by
  intro fuel
  induction fuel with
  | zero => intro offset pn p hmem; rw [calcPartsLoop_zero] at hmem; cases hmem
  | succ n ih =>
    intro offset pn p hmem
    by_cases hlt : offset < fileSize
    · rw [calcPartsLoop_cons _ _ _ _ _ hlt] at hmem
      rcases List.mem_cons.mp hmem with h | h
      · rw [h]
        refine ⟨rfl, ?_, ?_⟩
        · show offset < min (offset + partSize) fileSize
          omega
        · show min (offset + partSize) fileSize ≤ fileSize
          omega
      · exact ih _ _ _ h
    · rw [calcPartsLoop_nil _ _ _ _ _ (Nat.not_lt.mp hlt)] at hmem
      cases hmem

theorem calcPartsLoop_chained (fileSize partSize : Nat) :
    ∀ fuel offset pn,
      chainedFrom offset (calcPartsLoop fileSize partSize fuel offset pn) := by
  intro fuel
  induction fuel with
  | zero => intro offset pn; rw [calcPartsLoop_zero]; trivial
  | succ n ih =>
    intro offset pn
    by_cases hlt : offset < fileSize
    · rw [calcPartsLoop_cons _ _ _ _ _ hlt]
      exact ⟨rfl, ih _ _⟩
    · rw [calcPartsLoop_nil _ _ _ _ _ (Nat.not_lt.mp hlt)]
      trivial

theorem calcPartsLoop_partNumbers (fileSize partSize : Nat) :
    ∀ fuel offset pn,
      (calcPartsLoop fileSize partSize fuel offset pn).map UploadPart.partNumber
        = List.range' pn (calcPartsLoop fileSize partSize fuel offset pn).length := by
  intro fuel
  induction fuel with
  | zero => intro offset pn; rw [calcPartsLoop_zero]; rfl
  | succ n ih =>
    intro offset pn
    by_cases hlt : offset < fileSize
    · rw [calcPartsLoop_cons _ _ _ _ _ hlt]
      simp only [List.map_cons, List.length_cons, List.range'_succ]
      rw [ih (min (offset + partSize) fileSize) (pn + 1)]
    · rw [calcPartsLoop_nil _ _ _ _ _ (Nat.not_lt.mp hlt)]
      rfl

theorem calcPartsLoop_getLast (fileSize partSize : Nat) (hp : 0 < partSize) :
    ∀ fuel offset pn, fileSize - offset ≤ fuel → offset < fileSize →
      ((calcPartsLoop fileSize partSize fuel offset pn).getLast?).map
        UploadPart.end_ = some fileSize := by
  intro fuel
  induction fuel with
  | zero => intro offset pn h hlt; omega
  | succ n ih =>
    intro offset pn h hlt
    rw [calcPartsLoop_cons _ _ _ _ _ hlt]
    by_cases hend : min (offset + partSize) fileSize < fileSize
    · have hr := ih (min (offset + partSize) fileSize) (pn + 1) (by omega) hend
      cases hrec : calcPartsLoop fileSize partSize n
          (min (offset + partSize) fileSize) (pn + 1) with
      | nil => rw [hrec] at hr; simp at hr
      | cons q t =>
        rw [hrec] at hr
        rw [List.getLast?_cons_cons]
        exact hr
    · have heq : min (offset + partSize) fileSize = fileSize := by omega
      rw [heq, calcPartsLoop_nil _ _ _ _ _ (le_refl fileSize)]
      simp

theorem calcPartsLoop_dropLast_size (fileSize partSize : Nat) :
    ∀ fuel offset pn p,
      p ∈ (calcPartsLoop fileSize partSize fuel offset pn).dropLast →
      p.size = partSize := by
  intro fuel
  induction fuel with
  | zero => intro offset pn p hmem; rw [calcPartsLoop_zero] at hmem; cases hmem
  | succ n ih =>
    intro offset pn p hmem
    by_cases hlt : offset < fileSize
    · rw [calcPartsLoop_cons _ _ _ _ _ hlt] at hmem
      cases hrec : calcPartsLoop fileSize partSize n
          (min (offset + partSize) fileSize) (pn + 1) with
      | nil => rw [hrec] at hmem; cases hmem
      | cons q t =>
        rw [hrec] at hmem
        rw [show ∀ x : UploadPart, (x :: q :: t).dropLast
            = x :: (q :: t).dropLast from fun _ => rfl] at hmem
        have hoff : min (offset + partSize) fileSize < fileSize := by
          by_contra hcon
          have : calcPartsLoop fileSize partSize n
              (min (offset + partSize) fileSize) (pn + 1) = [] :=
            calcPartsLoop_nil _ _ _ _ _ (by omega)
          rw [hrec] at this
          cases this
        rcases List.mem_cons.mp hmem with hh | hh
        · rw [hh]
          show min (offset + partSize) fileSize - offset = partSize
          omega
        · have := ih (min (offset + partSize) fileSize) (pn + 1) p
          rw [hrec] at this
          exact this hh
    · rw [calcPartsLoop_nil _ _ _ _ _ (Nat.not_lt.mp hlt)] at hmem
      cases hmem

theorem calcPartsLoop_length (fileSize partSize : Nat) (hp : 0 < partSize) :
    ∀ fuel offset pn, fileSize - offset ≤ fuel →
      (calcPartsLoop fileSize partSize fuel offset pn).length
        = (fileSize - offset + partSize - 1) / partSize := by
  intro fuel
  induction fuel with
  | zero =>
    intro offset pn h
    rw [calcPartsLoop_zero]
    have h0 : fileSize - offset = 0 := by omega
    rw [h0]
    exact (Nat.div_eq_of_lt (by omega)).symm
  | succ n ih =>
    intro offset pn h
    by_cases hlt : offset < fileSize
    · rw [calcPartsLoop_cons _ _ _ _ _ hlt]
      rw [List.length_cons,
        ih (min (offset + partSize) fileSize) (pn + 1) (by omega)]
      by_cases hcase : offset + partSize ≤ fileSize
      · have hmin : min (offset + partSize) fileSize = offset + partSize := by
          omega
        rw [hmin]
        have h1 : fileSize - offset + partSize - 1
            = (fileSize - (offset + partSize) + partSize - 1) + partSize := by
          omega
        rw [h1, Nat.add_div_right _ hp]
      · have hmin : min (offset + partSize) fileSize = fileSize := by omega
        rw [hmin, Nat.sub_self]
        have hz : (0 + partSize - 1) / partSize = 0 :=
          Nat.div_eq_of_lt (by omega)
        have ho : (fileSize - offset + partSize - 1) / partSize = 1 :=
          Nat.div_eq_of_lt_le (by omega) (by omega)
        rw [hz, ho]
    · rw [calcPartsLoop_nil _ _ _ _ _ (Nat.not_lt.mp hlt)]
      have h0 : fileSize - offset = 0 := by omega
      rw [h0]
      exact (Nat.div_eq_of_lt (by omega)).symm

/-- Claim C1: for every `fileSize > 0` and every `partSize` accepted by the
uploader's configuration (between 5 MiB and 5 GiB), the plan returned by
`calculateParts` has part numbers `1, 2, …, n` (strictly increasing from 1),
byte ranges chaining contiguously from offset 0 with `size = end - start`
(no gaps, no overlaps), sizes summing to `fileSize`, the last part ending at
`fileSize`, and every part except the last of size ≥ 5 MiB. -/
theorem calculateParts_plan (fileSize partSize : Nat) (parts : List UploadPart)
    (hfs : 0 < fileSize) (hmin : MIN_PART_SIZE ≤ partSize)
    (hmax : partSize ≤ MAX_PART_SIZE)
    (hok : calculateParts fileSize partSize = Except.ok parts) :
    parts.map UploadPart.partNumber = List.range' 1 parts.length ∧
    chainedFrom 0 parts ∧
    (∀ p ∈ parts, p.size = p.end_ - p.start) ∧
    sumSizes parts = fileSize ∧
    parts.getLast?.map UploadPart.end_ = some fileSize ∧
    (∀ p ∈ parts.dropLast, MIN_PART_SIZE ≤ p.size) := by
  have hp : 0 < partSize := by
    have : (0 : Nat) < MIN_PART_SIZE := by norm_num [MIN_PART_SIZE]
    omega
  have hparts : parts = calculatePartsList fileSize partSize := by
    simp only [calculateParts] at hok
    split at hok
    · cases hok
    · injection hok with h
      exact h.symm
  subst hparts
  unfold calculatePartsList
  have hfuel : fileSize - 0 ≤ fileSize := by omega
  refine ⟨calcPartsLoop_partNumbers fileSize partSize fileSize 0 1,
    calcPartsLoop_chained fileSize partSize fileSize 0 1,
    fun p hmem => (calcPartsLoop_shape fileSize partSize hp fileSize 0 1 p hmem).1,
    ?_, ?_, ?_⟩
  · rw [calcPartsLoop_sum fileSize partSize hp fileSize 0 1 hfuel]
    omega
  · exact calcPartsLoop_getLast fileSize partSize hp fileSize 0 1 hfuel hfs
  · intro p hmem
    rw [calcPartsLoop_dropLast_size fileSize partSize fileSize 0 1 p hmem]
    exact hmin

/-! ## Configuration and plan rejection (claim C8) -/

/-- Claim C8: a configured `partSize` below 5 MiB or above 5 GiB is rejected
by the `MultipartUploader` constructor (a thrown configuration error — the
constructor has no access to the adapter, so no request can be issued); a
plan that would exceed 10 000 parts (exactly when `⌈fileSize / partSize⌉ >
10000`) makes `calculateParts` throw, and in that case `upload` returns a
failed result with an EMPTY adapter-call trace — no storage request is ever
issued and nothing is retried. -/
theorem config_and_plan_rejection (cfg : MultipartUploadConfig)
    (fs ps : Nat) (key : String) (oracle : StorageOracle)
    (ucfg : RequiredMultipartConfig) (e : String) :
    ((jsOrDefault cfg.partSize DEFAULT_PART_SIZE < MIN_PART_SIZE ∨
        MAX_PART_SIZE < jsOrDefault cfg.partSize DEFAULT_PART_SIZE) →
      exceptIsError (mkMultipartUploader cfg) = true) ∧
    (0 < ps →
      (exceptIsError (calculateParts fs ps) = true ↔
        10000 < (fs + ps - 1) / ps)) ∧
    (calculateParts fs ucfg.partSize = Except.error e →
      multipartUpload ucfg fs key oracle none =
        (⟨false, key, fs, none, 0, 0, some e⟩, none, [], [])) := by
  refine ⟨?_, ?_, ?_⟩
  · intro hbad
    unfold mkMultipartUploader
    rcases hbad with hlo | hhi
    · rw [if_pos hlo]
      rfl
    · rw [if_neg (by
        have : (0 : Nat) < MIN_PART_SIZE := by norm_num [MIN_PART_SIZE]
        have : MIN_PART_SIZE < MAX_PART_SIZE := by
          norm_num [MIN_PART_SIZE, MAX_PART_SIZE]
        omega), if_pos hhi]
      rfl
  · intro hps
    have hlen : (calculatePartsList fs ps).length = (fs + ps - 1) / ps := by
      have := calcPartsLoop_length fs ps hps fs 0 1 (by omega)
      unfold calculatePartsList
      rw [this]
      congr 1
    simp only [calculateParts, hlen]
    constructor
    · intro hisErr
      by_contra hcon
      rw [if_neg (by simpa [MAX_PARTS] using hcon)] at hisErr
      cases hisErr
    · intro hbig
      rw [if_pos (by simpa [MAX_PARTS] using hbig)]
      rfl
  · intro hcalc
    unfold multipartUpload
    rw [hcalc]

/-- Witness for C8: a configured `partSize` of 1 byte is rejected by the
constructor. -/
theorem config_and_plan_rejection_witness :
    exceptIsError
      (mkMultipartUploader
        { partSize := some 1, concurrency := none, retries := none,
          retryDelay := none }) = true :=
  (config_and_plan_rejection
    { partSize := some 1, concurrency := none, retries := none,
      retryDelay := none } 1 1 "k" okOracle ⟨1, 1, 1, 1⟩ "e").1
    (Or.inl (by norm_num [jsOrDefault, MIN_PART_SIZE]))

/-- Witness for C1 at `fileSize = 10 MiB`, `partSize = 5 MiB` (a 2-part
plan). -/
theorem calculateParts_plan_witness :
    (calculatePartsList 10485760 5242880).map UploadPart.partNumber
      = List.range' 1 (calculatePartsList 10485760 5242880).length ∧
    chainedFrom 0 (calculatePartsList 10485760 5242880) ∧
    (∀ p ∈ calculatePartsList 10485760 5242880, p.size = p.end_ - p.start) ∧
    sumSizes (calculatePartsList 10485760 5242880) = 10485760 ∧
    (calculatePartsList 10485760 5242880).getLast?.map UploadPart.end_
      = some 10485760 ∧
    (∀ p ∈ (calculatePartsList 10485760 5242880).dropLast,
      MIN_PART_SIZE ≤ p.size) :=
  calculateParts_plan 10485760 5242880 (calculatePartsList 10485760 5242880)
    (by norm_num) (by norm_num [MIN_PART_SIZE]) (by norm_num [MAX_PART_SIZE])
    (by rfl)

/-! ## Retry and engine-loop lemmas (claims C2, C7, C10) -/

theorem retryLoop_allFail (attemptFn : Nat → Except String String)
    (retryDelay : Nat) (err : Nat → String)
    (hfail : ∀ a, attemptFn a = Except.error (err a)) :
    ∀ remaining attempt,
      retryLoop attemptFn retryDelay attempt (remaining + 1)
        = (Except.error (err (attempt + remaining)), remaining + 1,
           (List.range remaining).map
             (fun i => retryDelay * 2 ^ (attempt + i))) := by
  intro remaining
  induction remaining with
  | zero =>
    intro attempt
    simp [retryLoop, hfail attempt]
  | succ n ih =>
    intro attempt
    rw [retryLoop.eq_def]
    simp only [hfail attempt]
    rw [if_neg (Nat.succ_ne_zero n)]
    rw [ih (attempt + 1)]
    refine congrArg₂ Prod.mk ?_ (congrArg₂ Prod.mk rfl ?_)
    · have h : attempt + 1 + n = attempt + (n + 1) := by omega
      rw [h]
    · rw [List.range_succ_eq_map, List.map_cons, List.map_map]
      refine congrArg₂ List.cons (by rw [Nat.add_zero]) ?_
      refine List.map_congr_left (fun a _ => ?_)
      simp only [Function.comp]
      have h : attempt + 1 + a = attempt + Nat.succ a := by omega
      rw [h]

/-- `uploadPartWithRetry` under a transfer that fails on every attempt:
exactly `retries + 1` attempts, backoff sleeps `retryDelay * 2 ^ a` for
`a = 0 … retries - 1`, and the final outcome is the last attempt's error
(`throw lastError`). -/
theorem uploadPartWithRetry_allFail (retries retryDelay : Nat)
    (attemptFn : Nat → Except String String) (err : Nat → String)
    (hfail : ∀ a, attemptFn a = Except.error (err a)) :
    uploadPartWithRetry retries retryDelay attemptFn
      = (Except.error (err retries), retries + 1,
         (List.range retries).map (fun i => retryDelay * 2 ^ i)) := by
  unfold uploadPartWithRetry
  rw [retryLoop_allFail attemptFn retryDelay err hfail retries 0]
  simp

theorem runParts_nil (cfg : RequiredMultipartConfig) (oracle : StorageOracle)
    (key uploadId : String) (fileSize cs : Nat) :
    runParts cfg oracle key uploadId fileSize [] cs = ⟨[], cs, [], [], none⟩ :=
  rfl

theorem runParts_ok (cfg : RequiredMultipartConfig) (oracle : StorageOracle)
    (key uploadId : String) (fileSize : Nat) :
    ∀ parts cs,
      (runParts cfg oracle key uploadId fileSize parts cs).firstError = none →
      (runParts cfg oracle key uploadId fileSize parts cs).progress
        = (runningTotals cs (parts.map UploadPart.size)).map
            (fun c => jsRound100 c fileSize) ∧
      (runParts cfg oracle key uploadId fileSize parts cs).completedSize
        = cs + sumSizes parts ∧
      (∀ p ∈ (runParts cfg oracle key uploadId fileSize parts cs).parts,
        p.status = .completed) := by
  intro parts
  induction parts with
  | nil =>
    intro cs _
    refine ⟨rfl, by simp [runParts_nil, sumSizes], ?_⟩
    intro p hmem
    rw [runParts_nil] at hmem
    cases hmem
  | cons p rest ih =>
    intro cs hfe
    cases hr : (uploadPartWithRetry cfg.retries cfg.retryDelay
        (oracle.uploadPart p.partNumber)).1 with
    | error e =>
      exfalso
      simp only [runParts, hr] at hfe
      cases hfe
    | ok etag =>
      simp only [runParts, hr] at hfe ⊢
      obtain ⟨h1, h2, h3⟩ := ih (cs + p.size) hfe
      refine ⟨?_, ?_, ?_⟩
      · rw [h1]
        simp [runningTotals]
      · rw [h2]
        simp [sumSizes]
        omega
      · intro q hmem
        rcases List.mem_cons.mp hmem with hq | hq
        · rw [hq]
        · exact h3 q hq

theorem runningTotals_chain (l : List Nat) :
    ∀ cs, List.Chain' (· ≤ ·) (runningTotals cs l) := by
  induction l with
  | nil => intro cs; simp [runningTotals]
  | cons s rest ih =>
    intro cs
    rw [show runningTotals cs (s :: rest)
      = (cs + s) :: runningTotals (cs + s) rest from rfl]
    rw [List.chain'_cons']
    refine ⟨?_, ih (cs + s)⟩
    intro b hb
    cases rest with
    | nil => simp [runningTotals] at hb
    | cons t ts =>
      rw [show runningTotals (cs + s) (t :: ts)
        = (cs + s + t) :: runningTotals (cs + s + t) ts from rfl] at hb
      simp at hb
      omega

theorem runningTotals_getLast (l : List Nat) :
    ∀ cs, l ≠ [] → (runningTotals cs l).getLast? = some (cs + l.sum) := by
  induction l with
  | nil => intro cs h; cases h rfl
  | cons s rest ih =>
    intro cs _
    cases rest with
    | nil => simp [runningTotals]
    | cons t ts =>
      rw [show runningTotals cs (s :: t :: ts)
        = (cs + s) :: runningTotals (cs + s) (t :: ts) from rfl]
      have hrt : runningTotals (cs + s) (t :: ts)
          = (cs + s + t) :: runningTotals (cs + s + t) ts := rfl
      rw [hrt, List.getLast?_cons_cons, ← hrt]
      rw [ih (cs + s) (by simp)]
      simp
      omega

theorem jsRound100_mono (t a b : Nat) (h : a ≤ b) :
    jsRound100 a t ≤ jsRound100 b t :=
  Nat.div_le_div_right (by omega)

theorem jsRound100_self (t : Nat) (h : 0 < t) : jsRound100 t t = 100 := by
  unfold jsRound100
  exact Nat.div_eq_of_lt_le (by omega) (by omega)

theorem runningTotals_eq_nil (cs : Nat) (l : List Nat) :
    runningTotals cs l = [] ↔ l = [] := by
  cases l with
  | nil => simp [runningTotals]
  | cons s rest =>
    rw [show runningTotals cs (s :: rest)
      = (cs + s) :: runningTotals (cs + s) rest from rfl]
    simp

theorem runFromState_shape (cfg : RequiredMultipartConfig) (fileSize : Nat)
    (key : String) (oracle : StorageOracle) (st : MultipartUploadState)
    (ev0 : List AdapterEvent) :
    (runFromState cfg fileSize key oracle st ev0).1.key = key ∧
    (runFromState cfg fileSize key oracle st ev0).1.size = fileSize ∧
    ((runFromState cfg fileSize key oracle st ev0).1.success = false →
      (runFromState cfg fileSize key oracle st ev0).1.partCount = 0 ∧
      ((runFromState cfg fileSize key oracle st ev0).1.error).isSome = true) ∧
    ((runFromState cfg fileSize key oracle st ev0).1.success = true →
      (runFromState cfg fileSize key oracle st ev0).1.error = none) := by
  simp only [runFromState]
  split
  · simp
  · split
    · simp
    · split
      · simp
      · simp

theorem runFromState_progress (cfg : RequiredMultipartConfig) (fileSize : Nat)
    (key : String) (oracle : StorageOracle) (st : MultipartUploadState)
    (ev0 : List AdapterEvent) :
    (runFromState cfg fileSize key oracle st ev0).2.2.2
      = (runParts cfg oracle key st.uploadId fileSize
          (st.parts.filter isPendingOrFailed)
          (sumSizes (st.parts.filter isCompleted))).progress ∧
    ((runFromState cfg fileSize key oracle st ev0).1.success = true →
      (runParts cfg oracle key st.uploadId fileSize
          (st.parts.filter isPendingOrFailed)
          (sumSizes (st.parts.filter isCompleted))).firstError = none) := by
  simp only [runFromState]
  split
  · simp
  · rename_i hfe
    split
    · simp [hfe]
    · split
      · simp [hfe]
      · simp [hfe]

theorem multipartUpload_shape (cfg : RequiredMultipartConfig) (fs : Nat)
    (key : String) (oracle : StorageOracle)
    (rs : Option MultipartUploadState) :
    (multipartUpload cfg fs key oracle rs).1.key = key ∧
    (multipartUpload cfg fs key oracle rs).1.size = fs ∧
    ((multipartUpload cfg fs key oracle rs).1.success = false →
      (multipartUpload cfg fs key oracle rs).1.partCount = 0 ∧
      ((multipartUpload cfg fs key oracle rs).1.error).isSome = true) ∧
    ((multipartUpload cfg fs key oracle rs).1.success = true →
      (multipartUpload cfg fs key oracle rs).1.error = none) := by
  cases rs with
  | some st =>
    simp only [multipartUpload]
    exact runFromState_shape cfg fs key oracle st []
  | none =>
    simp only [multipartUpload]
    cases hcalc : calculateParts fs cfg.partSize with
    | error e => simp
    | ok parts =>
      cases hinit : oracle.initiate with
      | error e => simp
      | ok uploadId => exact runFromState_shape cfg fs key oracle _ _

/-- Claim C10: `MultipartUploader.upload` never rejects — it is a total
function into `MultipartUploadResult` — and on any modelled internal failure
(plan rejection, initiation failure, part failures, completion failure) it
resolves with `success = false`, `partCount = 0`, an error message recorded,
`size` equal to the input byte length and `key` echoing the input key (the
success case echoes the same `key`/`size` and carries no error). -/
theorem upload_never_rejects (cfg : RequiredMultipartConfig) (fs : Nat)
    (key : String) (oracle : StorageOracle)
    (rs : Option MultipartUploadState) :
    (multipartUpload cfg fs key oracle rs).1.key = key ∧
    (multipartUpload cfg fs key oracle rs).1.size = fs ∧
    ((multipartUpload cfg fs key oracle rs).1.success = false →
      (multipartUpload cfg fs key oracle rs).1.partCount = 0 ∧
      ((multipartUpload cfg fs key oracle rs).1.error).isSome = true) ∧
    ((multipartUpload cfg fs key oracle rs).1.success = true →
      (multipartUpload cfg fs key oracle rs).1.error = none) :=
  multipartUpload_shape cfg fs key oracle rs

/-- Claim C7 (amended): for a successful fresh upload of a non-empty file,
the sequence of `percentage` values delivered to the progress callback is
non-empty, monotonically non-decreasing, and its final value is exactly 100.
(An upload with no parts left to transfer — an empty file, or a resumed
session whose parts were all completed — delivers no progress values at
all.) -/
theorem progress_monotone (cfg : RequiredMultipartConfig) (fs : Nat)
    (key : String) (oracle : StorageOracle)
    (hps : 0 < cfg.partSize) (hfs : 0 < fs)
    (hsucc : (multipartUpload cfg fs key oracle none).1.success = true) :
    (multipartUpload cfg fs key oracle none).2.2.2 ≠ [] ∧
    List.Chain' (· ≤ ·) (multipartUpload cfg fs key oracle none).2.2.2 ∧
    ((multipartUpload cfg fs key oracle none).2.2.2).getLast? = some 100 := by
  rcases hcalc : calculateParts fs cfg.partSize with e | parts
  · simp [multipartUpload, hcalc] at hsucc
  · rcases hinit : oracle.initiate with e | uploadId
    · simp [multipartUpload, hcalc, hinit] at hsucc
    · have hparts : parts = calculatePartsList fs cfg.partSize := by
        simp only [calculateParts] at hcalc
        split at hcalc
        · cases hcalc
        · injection hcalc with h
          exact h.symm
      have hmain : multipartUpload cfg fs key oracle none
          = runFromState cfg fs key oracle
              (⟨uploadId, key, fs, cfg.partSize, parts, 0⟩ :
                MultipartUploadState)
              [AdapterEvent.initiate key] := by
        simp only [multipartUpload, hcalc, hinit]
      rw [hmain] at hsucc ⊢
      obtain ⟨hprog, hfe⟩ := runFromState_progress cfg fs key oracle
        (⟨uploadId, key, fs, cfg.partSize, parts, 0⟩ : MultipartUploadState)
        [AdapterEvent.initiate key]
      have hstatus : ∀ p ∈ parts, p.status = PartStatus.pending := by
        intro p hp2
        rw [hparts] at hp2
        exact calcPartsLoop_status fs cfg.partSize fs 0 1 p hp2
      have hpend : parts.filter isPendingOrFailed = parts := by
        refine List.filter_eq_self.mpr (fun p hp2 => ?_)
        simp [isPendingOrFailed, hstatus p hp2]
      have hcomp : parts.filter isCompleted = [] := by
        rw [List.filter_eq_nil_iff]
        intro p hp2
        simp [isCompleted, hstatus p hp2]
      have hp1 : (⟨uploadId, key, fs, cfg.partSize, parts, 0⟩ :
          MultipartUploadState).parts.filter isPendingOrFailed = parts := hpend
      have hp2 : sumSizes ((⟨uploadId, key, fs, cfg.partSize, parts, 0⟩ :
          MultipartUploadState).parts.filter isCompleted) = 0 := by
        show sumSizes (parts.filter isCompleted) = 0
        rw [hcomp]
        rfl
      rw [hp1, hp2] at hprog hfe
      have hfe' := hfe hsucc
      obtain ⟨hprogeq, _, _⟩ := runParts_ok cfg oracle key _ fs parts 0 hfe'
      rw [hprogeq] at hprog
      have hsum : (parts.map UploadPart.size).sum = fs := by
        have hs := calcPartsLoop_sum fs cfg.partSize hps fs 0 1 (by omega)
        rw [hparts]
        unfold calculatePartsList
        simpa [sumSizes] using hs
      have hne : parts ≠ [] := by
        rw [hparts]
        unfold calculatePartsList
        cases fs with
        | zero => omega
        | succ n =>
          rw [calcPartsLoop_cons _ _ _ _ _ (by omega)]
          simp
      have hnem : parts.map UploadPart.size ≠ [] := by
        simpa using hne
      refine ⟨?_, ?_, ?_⟩
      · rw [hprog]
        simp only [ne_eq, List.map_eq_nil_iff, runningTotals_eq_nil]
        exact fun h => hne h
      · rw [hprog]
        refine (List.chain'_map _).mpr ?_
        exact List.Chain'.imp (fun a b hab => jsRound100_mono fs a b hab)
          (runningTotals_chain (parts.map UploadPart.size) 0)
      · rw [hprog, List.getLast?_map,
          runningTotals_getLast (parts.map UploadPart.size) 0 hnem]
        simp [hsum, jsRound100_self fs hfs]

/-- Counterexample to C7 as frozen: a successful upload of an EMPTY file has
no parts, so no progress value is ever delivered — in particular no final
value of 100. -/
theorem progress_empty_counterexample :
    (multipartUpload ⟨5242880, 3, 3, 1000⟩ 0 "k" okOracle none).1.success
        = true ∧
    (multipartUpload ⟨5242880, 3, 3, 1000⟩ 0 "k" okOracle none).2.2.2
        = [] :=
  ⟨by decide, by decide⟩

/-- Witness for C7: a successful 3-part upload (11 MiB, 5 MiB parts). -/
theorem progress_monotone_witness :
    (multipartUpload ⟨5242880, 2, 3, 1000⟩ 11534336 "k" okOracle none).2.2.2
        ≠ [] ∧
    List.Chain' (· ≤ ·)
      (multipartUpload ⟨5242880, 2, 3, 1000⟩ 11534336 "k" okOracle
        none).2.2.2 ∧
    ((multipartUpload ⟨5242880, 2, 3, 1000⟩ 11534336 "k" okOracle
        none).2.2.2).getLast? = some 100 :=
  progress_monotone ⟨5242880, 2, 3, 1000⟩ 11534336 "k" okOracle
    (by norm_num) (by norm_num) (by decide)

theorem calculatePartsList_single (fs ps : Nat) (h1 : 0 < fs) (h2 : fs ≤ ps) :
    calculatePartsList fs ps
      = [⟨1, 0, fs, fs, none, .pending, none⟩] := by
  unfold calculatePartsList
  cases fs with
  | zero => omega
  | succ n =>
    rw [calcPartsLoop_cons _ _ _ _ _ (by omega)]
    have hmin : min (0 + ps) (n + 1) = n + 1 := by omega
    rw [hmin]
    rw [calcPartsLoop_nil _ _ _ _ _ (le_refl _)]
    simp

theorem calculateParts_single (fs ps : Nat) (h1 : 0 < fs) (h2 : fs ≤ ps) :
    calculateParts fs ps
      = Except.ok [⟨1, 0, fs, fs, none, .pending, none⟩] := by
  unfold calculateParts
  rw [calculatePartsList_single fs ps h1 h2]
  rfl

/-- `runFromState` when the dispatch loop rejected: the raw part error
propagates (`Promise.race`/`Promise.all`) and becomes the result error. -/
theorem runFromState_err (cfg : RequiredMultipartConfig) (fileSize : Nat)
    (key : String) (oracle : StorageOracle) (st : MultipartUploadState)
    (ev0 : List AdapterEvent) (e : String) (out : RunOut)
    (hout : runParts cfg oracle key st.uploadId fileSize
      (st.parts.filter isPendingOrFailed)
      (sumSizes (st.parts.filter isCompleted)) = out)
    (hfe : out.firstError = some e) :
    runFromState cfg fileSize key oracle st ev0
      = (⟨false, key, fileSize, none, 0, 0, some e⟩,
         some { st with parts := mergeParts st.parts out.parts },
         ev0 ++ out.events, out.progress) := by
  simp only [runFromState, hout]
  split
  · rename_i e' heq
    rw [hfe] at heq
    injection heq with h
    subst h
    rfl
  · rename_i heq
    rw [hfe] at heq
    cases heq

/-- Claim C2 (amended): when the single part of a one-part upload fails on
every attempt, the uploader makes exactly `retries + 1` attempts with backoff
sleeps `retryDelay * 2 ^ attempt` between consecutive attempts, marks the part
`failed` with the error recorded, never issues a provider abort, and the
overall result has `success = false` with the failed part's LAST-ATTEMPT error
message (the rejected part promise propagates through
`Promise.race`/`Promise.all`; the aggregate failed-part-count message of
multipart.ts line 465 is not reached on this path). -/
theorem retry_exhaustion (cfg : RequiredMultipartConfig) (fs : Nat)
    (key uid : String) (oracle : StorageOracle) (err : Nat → String)
    (hfs : 0 < fs) (hle : fs ≤ cfg.partSize)
    (hfail : ∀ a, oracle.uploadPart 1 a = Except.error (err a))
    (hinit : oracle.initiate = Except.ok uid) :
    uploadPartWithRetry cfg.retries cfg.retryDelay (oracle.uploadPart 1)
      = (Except.error (err cfg.retries), cfg.retries + 1,
         (List.range cfg.retries).map (fun i => cfg.retryDelay * 2 ^ i)) ∧
    (multipartUpload cfg fs key oracle none).1.success = false ∧
    (multipartUpload cfg fs key oracle none).1.error
      = some (err cfg.retries) ∧
    ((multipartUpload cfg fs key oracle none).2.1).map
        (fun st => st.parts.map UploadPart.status)
      = some [PartStatus.failed] ∧
    ((multipartUpload cfg fs key oracle none).2.1).map
        (fun st => st.parts.map UploadPart.error)
      = some [some (err cfg.retries)] ∧
    (multipartUpload cfg fs key oracle none).2.2.1
      = AdapterEvent.initiate key ::
        (List.range (cfg.retries + 1)).map
          (fun a => AdapterEvent.uploadPart key uid 1 a) ∧
    (∀ k u, AdapterEvent.abortUpload k u
      ∉ (multipartUpload cfg fs key oracle none).2.2.1) := by
  have hretry := uploadPartWithRetry_allFail cfg.retries cfg.retryDelay
    (oracle.uploadPart 1) err hfail
  have hplan := calculateParts_single fs cfg.partSize hfs hle
  have hmain : multipartUpload cfg fs key oracle none
      = runFromState cfg fs key oracle
          (⟨uid, key, fs, cfg.partSize,
            [⟨1, 0, fs, fs, none, .pending, none⟩], 0⟩ :
              MultipartUploadState)
          [AdapterEvent.initiate key] := by
    simp only [multipartUpload, hplan, hinit]
  have hrun : runParts cfg oracle key uid fs
      [⟨1, 0, fs, fs, none, .pending, none⟩] 0
      = ⟨[⟨1, 0, fs, fs, none, .failed, some (err cfg.retries)⟩], 0,
         (List.range (cfg.retries + 1)).map
           (fun a => AdapterEvent.uploadPart key uid 1 a),
         [], some (err cfg.retries)⟩ := by
    simp only [runParts, hretry]
  have hrfs := runFromState_err cfg fs key oracle
    (⟨uid, key, fs, cfg.partSize,
      [⟨1, 0, fs, fs, none, .pending, none⟩], 0⟩ : MultipartUploadState)
    [AdapterEvent.initiate key] (err cfg.retries)
    (⟨[⟨1, 0, fs, fs, none, .failed, some (err cfg.retries)⟩], 0,
      (List.range (cfg.retries + 1)).map
        (fun a => AdapterEvent.uploadPart key uid 1 a),
      [], some (err cfg.retries)⟩ : RunOut)
    hrun rfl
  refine ⟨hretry, ?_⟩
  rw [hmain, hrfs]
  refine ⟨rfl, rfl, rfl, rfl, rfl, ?_⟩
  intro k u
  simp [List.mem_map]

/-- Witness for C2 at `retries = 2`, a 1-byte file and per-attempt error
messages `e0`, `e1`, `e2`. -/
theorem retry_exhaustion_witness :
    uploadPartWithRetry 2 7
        ((StorageOracle.mk (Except.ok "uid-1")
          (fun _ a => Except.error ("e" ++ toString a))
          (Except.ok ())).uploadPart 1)
      = (Except.error "e2", 3, [7, 14]) ∧
    (multipartUpload ⟨5242880, 3, 2, 7⟩ 1 "k"
      (StorageOracle.mk (Except.ok "uid-1")
        (fun _ a => Except.error ("e" ++ toString a))
        (Except.ok ())) none).1.success = false := by
  have h := retry_exhaustion ⟨5242880, 3, 2, 7⟩ 1 "k" "uid-1"
    (StorageOracle.mk (Except.ok "uid-1")
      (fun _ a => Except.error ("e" ++ toString a)) (Except.ok ()))
    (fun a => "e" ++ toString a) (by norm_num) (by norm_num)
    (fun a => rfl) rfl
  exact ⟨by rw [h.1]; rfl, h.2.1⟩

/-- Counterexample to C2 as frozen: with a single always-failing part the
result's error is the part's raw network error, not a message naming the
failed-part count. -/
theorem retry_error_message_counterexample :
    (multipartUpload ⟨5242880, 3, 1, 1000⟩ 1 "k" failPartOracle
        none).1.success = false ∧
    (multipartUpload ⟨5242880, 3, 1, 1000⟩ 1 "k" failPartOracle none).1.error
      = some "network error" ∧
    (multipartUpload ⟨5242880, 3, 1, 1000⟩ 1 "k" failPartOracle none).1.error
      ≠ some "1 个分片上传失败" := by
  refine ⟨by decide, by decide, by decide⟩

/-! ## State-store lemmas (claims C3-C6) -/

theorem storeGet_save_self (store : StateStore) (id : String)
    (s : ResumableUploadState) (now : Nat) :
    storeGet (storeSave store id s now) id
      = some { s with updatedAt := now } := by
  induction store with
  | nil => simp [storeSave, storeGet]
  | cons p rest ih =>
    obtain ⟨k, v⟩ := p
    by_cases hk : k = id
    · simp [storeSave, hk, storeGet]
    · simp [storeSave, hk, storeGet, ih]

theorem storeGet_not_mem (store : StateStore) (id : String)
    (h : id ∉ storeIds store) : storeGet store id = none := by
  induction store with
  | nil => rfl
  | cons p rest ih =>
    obtain ⟨k, v⟩ := p
    simp only [storeIds, List.map_cons, List.mem_cons] at h
    push_neg at h
    obtain ⟨h1, h2⟩ := h
    show (if k = id then some v else storeGet rest id) = none
    rw [if_neg (fun hh => h1 (hh.symm))]
    exact ih h2

theorem storeIds_save_mem (store : StateStore) (id : String)
    (s : ResumableUploadState) (now : Nat) (x : String) :
    x ∈ storeIds (storeSave store id s now) → x ∈ storeIds store ∨ x = id := by
  induction store with
  | nil =>
    intro hx
    simp [storeSave, storeIds] at hx
    exact Or.inr hx
  | cons p rest ih =>
    obtain ⟨k, v⟩ := p
    by_cases hk : k = id
    · intro hx
      simp only [storeSave, if_pos hk, storeIds, List.map_cons,
        List.mem_cons] at hx ⊢
      rcases hx with hx | hx
      · exact Or.inr hx
      · exact Or.inl (Or.inr hx)
    · intro hx
      simp only [storeSave, if_neg hk, storeIds, List.map_cons,
        List.mem_cons] at hx ⊢
      rcases hx with hx | hx
      · exact Or.inl (Or.inl hx)
      · rcases ih hx with hy | hy
        · exact Or.inl (Or.inr hy)
        · exact Or.inr hy

theorem storeIds_save_eq (store : StateStore) (id : String)
    (s : ResumableUploadState) (now : Nat) :
    storeIds (storeSave store id s now)
      = if id ∈ storeIds store then storeIds store
        else storeIds store ++ [id] := by
  induction store with
  | nil => simp [storeSave, storeIds]
  | cons p rest ih =>
    obtain ⟨k, v⟩ := p
    by_cases hk : k = id
    · subst hk
      simp [storeSave, storeIds]
    · simp only [storeSave, if_neg hk, storeIds, List.map_cons] at ih ⊢
      rw [ih]
      by_cases hm : id ∈ List.map Prod.fst rest
      · rw [if_pos hm, if_pos (by simp [hm])]
      · rw [if_neg hm, if_neg (by
          simp only [List.mem_cons]
          push_neg
          exact ⟨fun hh => hk hh.symm, hm⟩)]
        simp

theorem storeIds_save_nodup (store : StateStore) (id : String)
    (s : ResumableUploadState) (now : Nat)
    (h : (storeIds store).Nodup) :
    (storeIds (storeSave store id s now)).Nodup := by
  rw [storeIds_save_eq]
  by_cases hm : id ∈ storeIds store
  · rw [if_pos hm]
    exact h
  · rw [if_neg hm]
    simp [List.nodup_append, h, hm]

theorem storeIds_delete_mem (store : StateStore) (id x : String) :
    x ∈ storeIds (storeDelete store id) → x ∈ storeIds store := by
  induction store with
  | nil => intro hx; exact hx
  | cons p rest ih =>
    obtain ⟨k, v⟩ := p
    by_cases hk : k = id
    · intro hx
      simp only [storeDelete, if_pos hk] at hx
      simp only [storeIds, List.map_cons, List.mem_cons]
      exact Or.inr hx
    · intro hx
      simp only [storeDelete, if_neg hk, storeIds, List.map_cons,
        List.mem_cons] at hx ⊢
      rcases hx with hx | hx
      · exact Or.inl hx
      · exact Or.inr (ih hx)

theorem storeGet_delete_self (store : StateStore) (id : String)
    (h : (storeIds store).Nodup) :
    storeGet (storeDelete store id) id = none := by
  induction store with
  | nil => rfl
  | cons p rest ih =>
    obtain ⟨k, v⟩ := p
    simp only [storeIds, List.map_cons, List.nodup_cons] at h
    obtain ⟨hk, hrest⟩ := h
    by_cases hkid : k = id
    · simp only [storeDelete, if_pos hkid]
      subst hkid
      exact storeGet_not_mem rest k hk
    · simp only [storeDelete, if_neg hkid]
      show (if k = id then some v else storeGet (storeDelete rest id) id) = none
      rw [if_neg hkid]
      exact ih hrest

/-- Claim C6: after `executeUpload`, an engine success leaves the record
marked `completed`, persisted, and then deleted (absent from the final
store); an engine failure leaves the record persisted and retained with the
run's error recorded and status `failed` — or `cancelled` when the exception
reached the catch handler with the abort flag set (in this model the only
exception inside the `try` block is the uploader-construction configuration
error; an engine-run failure itself always yields `failed`). -/
theorem executeUpload_terminal (cfg : MultipartUploadConfig)
    (store : StateStore) (state : ResumableUploadState) (fs : Nat)
    (oracle : StorageOracle) (aborted : Bool) (now : Nat)
    (hnd : (storeIds store).Nodup) :
    ((executeUpload cfg store state fs oracle aborted now).1.success = true →
      storeGet (executeUpload cfg store state fs oracle aborted now).2.1
        state.id = none) ∧
    ((executeUpload cfg store state fs oracle aborted now).1.success = false →
      ∃ s, storeGet (executeUpload cfg store state fs oracle aborted now).2.1
          state.id = some s ∧
        s.error = (executeUpload cfg store state fs oracle aborted now).1.error ∧
        ((executeUpload cfg store state fs oracle aborted now).1.error).isSome
          = true ∧
        s.status = (match mkMultipartUploader cfg with
          | Except.error _ =>
            if aborted then ResumableStatus.cancelled
            else ResumableStatus.failed
          | Except.ok _ => ResumableStatus.failed)) := by
  cases hmk : mkMultipartUploader cfg with
  | error e =>
    simp only [executeUpload, hmk]
    constructor
    · intro h
      cases h
    · intro _
      refine ⟨_, storeGet_save_self store state.id _ now, rfl, rfl, ?_⟩
      rfl
  | ok ucfg =>
    have hshape := multipartUpload_shape ucfg fs state.key oracle
      state.multipartState
    simp only [executeUpload, hmk]
    cases hs : (multipartUpload ucfg fs state.key oracle
        state.multipartState).1.success with
    | true =>
      constructor
      · intro _
        rw [if_pos rfl]
        exact storeGet_delete_self _ state.id
          (storeIds_save_nodup store state.id _ now hnd)
      · intro hfalse
        exact Bool.noConfusion hfalse
    | false =>
      constructor
      · intro htrue
        exact Bool.noConfusion htrue
      · intro _
        rw [if_neg (by exact Bool.false_ne_true)]
        refine ⟨_, storeGet_save_self store state.id _ now, rfl, ?_, ?_⟩
        · exact (hshape.2.2.1 hs).2
        · rfl

/-- Witness for C6: the successful resumed upload of `sampleRecord` removes
the record from the store. -/
theorem executeUpload_terminal_witness :
    storeGet (executeUpload sampleCfg sampleStore sampleRecord 2 okOracle
      false 0).2.1 sampleRecord.id = none :=
  (executeUpload_terminal sampleCfg sampleStore sampleRecord 2 okOracle
    false 0 (by decide)).1 (by decide)

/-- Claim C3: resuming with a byte source whose computed hash or length
differs from the stored record's `fileHash`/`fileSize` returns the hard
"file does not match" failure (the Chinese source string
"文件不匹配，无法恢复上传"), leaves the store untouched, and issues no
storage-adapter call whatsoever — in particular it never falls back to a
fresh upload. -/
theorem resume_mismatch (sha : List Nat → String)
    (cfg : MultipartUploadConfig) (oracle : StorageOracle)
    (store : StateStore) (id : String) (file : List Nat) (now : Nat)
    (state : ResumableUploadState)
    (hget : storeGet store id = some state)
    (hmm : calculateFileHash sha file ≠ state.fileHash ∨
      file.length ≠ state.fileSize) :
    resume sha cfg oracle store id file now
      = (⟨false, id, state.key, file.length, 0, 0,
          some "文件不匹配，无法恢复上传"⟩, store, []) := by
  simp only [resume, hget]
  rw [if_pos hmm]

/-- Witness for C3: resuming `sampleRecord` (2 bytes) with a 3-byte source is
rejected without touching the store or the provider. -/
theorem resume_mismatch_witness :
    resume sampleSha sampleCfg okOracle sampleStore "u1" [0, 0, 0] 9
      = (⟨false, "u1", sampleRecord.key, 3, 0, 0,
          some "文件不匹配，无法恢复上传"⟩, sampleStore, []) :=
  resume_mismatch sampleSha sampleCfg okOracle sampleStore "u1" [0, 0, 0] 9
    sampleRecord (by decide) (Or.inr (by decide))

/-! ## Record reuse on upload (claim C4) -/

theorem id_mem_of_mem_values (store : StateStore) (r : ResumableUploadState)
    (hwf : StoreWF store) (h : r ∈ store.map Prod.snd) :
    r.id ∈ storeIds store := by
  obtain ⟨p, hp, hpr⟩ := List.mem_map.mp h
  have hid := hwf.1 p hp
  rw [hpr] at hid
  rw [hid]
  exact List.mem_map.mpr ⟨p, hp, rfl⟩

theorem storeGet_of_mem_values (store : StateStore)
    (r : ResumableUploadState) (hwf : StoreWF store)
    (h : r ∈ store.map Prod.snd) : storeGet store r.id = some r := by
  induction store with
  | nil => cases h
  | cons p rest ih =>
    obtain ⟨k, v⟩ := p
    have hid : v.id = k := hwf.1 (k, v) (List.mem_cons_self _ _)
    have hrest_wf : StoreWF rest := by
      refine ⟨fun q hq => hwf.1 q (List.mem_cons_of_mem _ hq), ?_⟩
      have hnd := hwf.2
      simp only [storeIds, List.map_cons, List.nodup_cons] at hnd
      exact hnd.2
    have hknotin : k ∉ storeIds rest := by
      have hnd := hwf.2
      simp only [storeIds, List.map_cons, List.nodup_cons] at hnd
      exact hnd.1
    rcases List.mem_cons.mp h with hv | hv
    · subst hv
      show (if k = r.id then some r else storeGet rest r.id) = some r
      rw [if_pos hid.symm]
    · have hrid : r.id ∈ storeIds rest :=
        id_mem_of_mem_values rest r hrest_wf hv
      show (if k = r.id then some v else storeGet rest r.id) = some r
      rw [if_neg (fun hk => hknotin (by rw [hk]; exact hrid))]
      exact ih hrest_wf hv

theorem executeUpload_result_id (cfg : MultipartUploadConfig)
    (store : StateStore) (state : ResumableUploadState) (fs : Nat)
    (oracle : StorageOracle) (aborted : Bool) (now : Nat) :
    (executeUpload cfg store state fs oracle aborted now).1.id = state.id := by
  cases hmk : mkMultipartUploader cfg <;> simp [executeUpload, hmk]

theorem executeUpload_ids (cfg : MultipartUploadConfig) (store : StateStore)
    (state : ResumableUploadState) (fs : Nat) (oracle : StorageOracle)
    (aborted : Bool) (now : Nat) (x : String) :
    x ∈ storeIds (executeUpload cfg store state fs oracle aborted now).2.1 →
    x ∈ storeIds store ∨ x = state.id := by
  cases hmk : mkMultipartUploader cfg with
  | error e =>
    simp only [executeUpload, hmk]
    exact storeIds_save_mem store state.id _ now x
  | ok ucfg =>
    simp only [executeUpload, hmk]
    intro hx
    cases hs : (multipartUpload ucfg fs state.key oracle
        state.multipartState).1.success with
    | true =>
      rw [hs, if_pos rfl] at hx
      exact storeIds_save_mem store state.id _ now x
        (storeIds_delete_mem _ state.id x hx)
    | false =>
      rw [hs, if_neg Bool.false_ne_true] at hx
      exact storeIds_save_mem store state.id _ now x hx

/-- Claim C4: when a non-terminal record matching `(key, fileHash, fileSize)`
exists in the store, a fresh `upload()` call with the same bytes and key
delegates to `resume` on that record's id — the returned result carries the
existing record's id, and the freshly generated id is never added to the
store (no second record/session is created). -/
theorem upload_reuses_record (sha : List Nat → String)
    (cfg : MultipartUploadConfig) (oracle : StorageOracle)
    (store : StateStore) (freshId : String) (file : List Nat) (key : String)
    (filename : Option String) (now : Nat) (r : ResumableUploadState)
    (hwf : StoreWF store)
    (hfind : findExistingUpload store key (calculateFileHash sha file)
      file.length = some r) :
    resumableUpload sha cfg oracle store freshId file key filename now
      = resume sha cfg oracle store r.id file now ∧
    (resumableUpload sha cfg oracle store freshId file key filename now).1.id
      = r.id ∧
    (freshId ∉ storeIds store →
      freshId ∉ storeIds
        (resumableUpload sha cfg oracle store freshId file key filename
          now).2.1) := by
  have hdeleg : resumableUpload sha cfg oracle store freshId file key
      filename now = resume sha cfg oracle store r.id file now := by
    simp only [resumableUpload, hfind]
  have hmem : r ∈ store.map Prod.snd :=
    List.mem_of_mem_filter (List.mem_of_find?_eq_some hfind)
  have hpred := List.find?_some hfind
  simp only [Bool.and_eq_true, decide_eq_true_eq] at hpred
  obtain ⟨⟨hkey, hhash⟩, hsize⟩ := hpred
  have hget : storeGet store r.id = some r :=
    storeGet_of_mem_values store r hwf hmem
  have hres : resume sha cfg oracle store r.id file now
      = executeUpload cfg
          (storeSave store r.id
            { r with status := ResumableStatus.uploading, updatedAt := now }
            now)
          { r with status := ResumableStatus.uploading, updatedAt := now }
          file.length oracle false now := by
    simp only [resume, hget]
    rw [if_neg (by push_neg; exact ⟨hhash.symm, hsize.symm⟩)]
  refine ⟨hdeleg, ?_, ?_⟩
  · rw [hdeleg, hres, executeUpload_result_id]
  · intro hfresh hbad
    rw [hdeleg, hres] at hbad
    rcases executeUpload_ids _ _ _ _ _ _ _ _ hbad with hy | hy
    · rcases storeIds_save_mem store r.id _ now freshId hy with hz | hz
      · exact hfresh hz
      · rw [hz] at hfresh
        exact hfresh (id_mem_of_mem_values store r hwf hmem)
    · have hid2 : ({ r with status := ResumableStatus.uploading, updatedAt := now } : ResumableUploadState).id = r.id := rfl
      rw [hid2] at hy
      rw [hy] at hfresh
      exact hfresh (id_mem_of_mem_values store r hwf hmem)

/-- Witness for C4: a second upload of the same 2-byte content under key `k`
reuses record `u1`. -/
theorem upload_reuses_record_witness :
    (resumableUpload sampleSha sampleCfg okOracle sampleStore "fresh-id"
      [7, 7] "k" none 3).1.id = "u1" :=
  (upload_reuses_record sampleSha sampleCfg okOracle sampleStore "fresh-id"
    [7, 7] "k" none 3 sampleRecord (by decide) (by decide)).2.1

/-! ## Cancellation (claim C5) -/

/-- Claim C5 (code bug): `cancel(id)` during an in-flight upload marks the
stored record `cancelled` and issues exactly one best-effort provider abort,
but the in-flight engine run IGNORES the abort flag — the flag is only tested
inside an `async` `onStateChange` wrapper whose rejected promise the engine
never awaits — so the run completes, overwrites the record as `completed` and
deletes it: the terminal stored state is not `cancelled` (the record is
gone). -/
theorem cancel_inflight_divergence :
    (cancel sampleStore "u1" 5).2
      = [AdapterEvent.abortUpload "k" "mp-1"] ∧
    (storeGet (cancel sampleStore "u1" 5).1 "u1").map
        ResumableUploadState.status = some ResumableStatus.cancelled ∧
    (executeUpload sampleCfg (cancel sampleStore "u1" 5).1 sampleRecord 2
      okOracle true 6).1.success = true ∧
    storeGet (executeUpload sampleCfg (cancel sampleStore "u1" 5).1
      sampleRecord 2 okOracle true 6).2.1 "u1" = none := by
  refine ⟨by decide, by decide, by decide, by decide⟩

/-! ## Request-signing determinism (claim C9) -/

/-- Claim C9: for fixed credentials, method, URL, headers, body and
timestamp, each signing strategy is deterministic — two invocations of the
SigV4 pipeline (`signRequest`) on equal inputs produce the identical signed
headers, signature and `Authorization` value, and two invocations of the
native COS scheme (`generateSignature`) on equal inputs produce the identical
authorization string.  The digest primitives are arbitrary but fixed
functions, so the only ambient inputs are the explicit timestamp
parameters. -/
theorem signing_deterministic (sha256 : List Nat → List Nat)
    (hmac : List Nat → List Nat → List Nat) (dec : String → String)
    (cfg cfg' : S3Config) (m m' : String) (u u' : ParsedUrl)
    (hs hs' : List (String × String)) (body body' : List Nat)
    (ad ad' ds ds' : String)
    (sha1hex : List Nat → String) (hmac1 : String → String → String)
    (ccfg ccfg' : COSConfig) (cm cm' ck ck' : String)
    (chs chs' cqs cqs' : List (String × String)) (ex ex' tnow tnow' : Nat)
    (h1 : cfg = cfg') (h2 : m = m') (h3 : u = u') (h4 : hs = hs')
    (h5 : body = body') (h6 : ad = ad') (h7 : ds = ds')
    (h8 : ccfg = ccfg') (h9 : cm = cm') (h10 : ck = ck')
    (h11 : chs = chs') (h12 : cqs = cqs') (h13 : ex = ex')
    (h14 : tnow = tnow') :
    signRequest sha256 hmac dec cfg m u hs body ad ds
      = signRequest sha256 hmac dec cfg' m' u' hs' body' ad' ds' ∧
    generateSignature sha1hex hmac1 ccfg cm ck chs cqs ex tnow
      = generateSignature sha1hex hmac1 ccfg' cm' ck' chs' cqs' ex' tnow' := by
  subst h1 h2 h3 h4 h5 h6 h7 h8 h9 h10 h11 h12 h13 h14
  exact ⟨rfl, rfl⟩

/-- Witness for C9: both schemes at a concrete request with fixed (abstract)
digests and a fixed timestamp. -/
theorem signing_deterministic_witness :
    signRequest (fun bs => bs) (fun k d => k ++ d) (fun s => s)
        ⟨"b", "us-east-1", "AK", "SK", none⟩ "PUT"
        ⟨"b.s3.us-east-1.amazonaws.com", "/file.txt", [("uploadId", "u")]⟩
        [("Content-Length", "3")] [104, 105, 33] "20260101T000000Z" "20260101"
      = signRequest (fun bs => bs) (fun k d => k ++ d) (fun s => s)
        ⟨"b", "us-east-1", "AK", "SK", none⟩ "PUT"
        ⟨"b.s3.us-east-1.amazonaws.com", "/file.txt", [("uploadId", "u")]⟩
        [("Content-Length", "3")] [104, 105, 33] "20260101T000000Z"
        "20260101" ∧
    generateSignature (fun bs => toString bs.length) (fun k d => k ++ d)
        ⟨"b", "ap-guangzhou", "SID", "SKEY", none⟩ "put" "file.txt"
        [("Host", "b.cos.ap-guangzhou.myqcloud.com")] [("uploadid", "u")]
        600 1767225600
      = generateSignature (fun bs => toString bs.length) (fun k d => k ++ d)
        ⟨"b", "ap-guangzhou", "SID", "SKEY", none⟩ "put" "file.txt"
        [("Host", "b.cos.ap-guangzhou.myqcloud.com")] [("uploadid", "u")]
        600 1767225600 :=
  signing_deterministic (fun bs => bs) (fun k d => k ++ d) (fun s => s)
    ⟨"b", "us-east-1", "AK", "SK", none⟩ ⟨"b", "us-east-1", "AK", "SK", none⟩
    "PUT" "PUT"
    ⟨"b.s3.us-east-1.amazonaws.com", "/file.txt", [("uploadId", "u")]⟩
    ⟨"b.s3.us-east-1.amazonaws.com", "/file.txt", [("uploadId", "u")]⟩
    [("Content-Length", "3")] [("Content-Length", "3")]
    [104, 105, 33] [104, 105, 33] "20260101T000000Z" "20260101T000000Z"
    "20260101" "20260101"
    (fun bs => toString bs.length) (fun k d => k ++ d)
    ⟨"b", "ap-guangzhou", "SID", "SKEY", none⟩
    ⟨"b", "ap-guangzhou", "SID", "SKEY", none⟩
    "put" "put" "file.txt" "file.txt"
    [("Host", "b.cos.ap-guangzhou.myqcloud.com")]
    [("Host", "b.cos.ap-guangzhou.myqcloud.com")]
    [("uploadid", "u")] [("uploadid", "u")] 600 600 1767225600 1767225600
    rfl rfl rfl rfl rfl rfl rfl rfl rfl rfl rfl rfl rfl rfl
theorem upload_never_rejects_witness :
    (multipartUpload ⟨5242880, 3, 1, 1000⟩ 1 "k" failPartOracle none).1.partCount
        = 0 ∧
    ((multipartUpload ⟨5242880, 3, 1, 1000⟩ 1 "k" failPartOracle
        none).1.error).isSome = true :=
  (upload_never_rejects ⟨5242880, 3, 1, 1000⟩ 1 "k" failPartOracle
    none).2.2.1 (by decide)
